import Mathlib

/-!
Shallow embedding of the playback-control module `src/webaudio.js`
(WaveSurfer.WebAudio): a playback state machine over a decoded audio
buffer, with pause/resume bookkeeping, a loop-region manager and a
poll/event driver.  Times are modelled as exact rationals; the hardware
clock `ac.currentTime` is passed explicitly as a `now` argument to every
operation that reads it.  External audio-graph nodes are abstracted to
the one bit the state machine observes: whether a source node currently
exists (`source`).  Events fired via `fireEvent` are returned as lists.
-/

namespace WaveSurfer

/-- A decoded audio buffer as the module observes it: only its duration
matters to the state machine.  The platform guarantees a nonnegative
duration. -/
structure Buffer where
  duration : ℚ
  duration_nonneg : 0 ≤ duration

/-- The mutable state of the `WaveSurfer.WebAudio` object.  Field names
follow the source, including the `playBackrate` spelling.  `source` is
true iff a buffer-source node is currently attached. -/
structure WebAudio where
  buffer : Option Buffer
  paused : Bool
  lastStart : ℚ
  startTime : ℚ
  lastPause : ℚ
  scheduledPause : ℚ
  playBackrate : ℚ
  loop : Bool
  loopStart : ℚ
  loopEnd : ℚ
  loopedAtStart : Bool
  lastLoop : ℚ
  loopSelection : Bool
  source : Bool

/-- Events fired via `fireEvent` in the source, with their payloads. -/
inductive Event where
  | play : Event
  | pause : Event
  | finish (t : ℚ) : Event
  | audioprocess (t : ℚ) : Event
deriving DecidableEq

/-- Source `isPaused`. -/
def isPaused (s : WebAudio) : Bool :=
  s.paused

/-- Source `getDuration`: `this.buffer ? this.buffer.duration : 0`. -/
def getDuration (s : WebAudio) : ℚ :=
  match s.buffer with
  | some b => b.duration
  | none => 0

/-- Source `loopIsActive`: `this.loopSelection && this.loop && this.lastLoop &&
this.loopedAtStart`; a rational `lastLoop` is truthy iff nonzero. -/
def loopIsActive (s : WebAudio) : Bool :=
  s.loopSelection && s.loop && (s.lastLoop != 0) && s.loopedAtStart

/-- Source `getCurrentTime`: `lastPause` when paused, loop-rebased position when
`loopIsActive`, otherwise elapsed time since the segment start. -/
def getCurrentTime (s : WebAudio) (now : ℚ) : ℚ :=
  if isPaused s then
    s.lastPause
  else if loopIsActive s then
    s.loopStart + (now - s.lastLoop) * s.playBackrate
  else
    s.lastStart + (now - s.startTime) * s.playBackrate

/-- Source `clearSource`: disconnect and drop the source node if present. -/
def clearSource (s : WebAudio) : WebAudio :=
  if s.source then { s with source := false } else s

/-- Source `refreshBufferSource`: `clearSource` then create a fresh source node
(the rate/buffer assignments mutate only the external node). -/
def refreshBufferSource (s : WebAudio) : WebAudio :=
  { clearSource s with source := true }

/-- Source `setupLoop`: reset loop-wrap bookkeeping, then mark `loopedAtStart`
(and configure the external source node) when the loop region applies to
the segment that is starting. -/
def setupLoop (s : WebAudio) : WebAudio :=
  let s1 := { s with lastLoop := 0, loopedAtStart := false }
  if s1.loop = true ∧ s1.lastStart ≤ s1.loopEnd then
    { s1 with loopedAtStart := true }
  else
    s1

/-- Source `setBuffer`: drop the source node, zero the segment/pause/loop-wrap
timestamps, mark paused, and adopt the new buffer. -/
def setBuffer (s : WebAudio) (b : Option Buffer) : WebAudio :=
  { clearSource s with
      lastLoop := 0
      lastPause := 0
      lastStart := 0
      startTime := 0
      paused := true
      buffer := b }

/-- Source `setPlaybackRate`: `this.playBackrate = value || 1` — a missing or
zero rate falls back to 1. -/
def setPlaybackRate (s : WebAudio) (value : Option ℚ) : WebAudio :=
  match value with
  | none => { s with playBackrate := 1 }
  | some v => { s with playBackrate := if v = 0 then 1 else v }

/-- Source `play(start, end)`: refresh the source, resolve the missing bounds
(`null == start` → current time, `null == end` → duration), clamp a
start past the end to 0, record the new segment, run `setupLoop` when
the loop-selection feature is on, start the node and fire `play`. -/
def play (s : WebAudio) (start? end? : Option ℚ) (now : ℚ) :
    WebAudio × List Event :=
  let s0 := refreshBufferSource s
  let start0 := start?.getD (getCurrentTime s0 now)
  let stop := end?.getD (getDuration s0)
  let start := if start0 > stop then 0 else start0
  let s1 := { s0 with
      lastStart := start
      startTime := now
      paused := false
      scheduledPause := stop }
  let s2 := if s1.loopSelection then setupLoop s1 else s1
  (s2, [Event.play])

/-- Source `pause()`: freeze the logical position into `lastPause` (branching
on `loopIsActive`), mark paused, stop and drop the source node if one
exists, and fire `pause`. -/
def pause (s : WebAudio) (now : ℚ) : WebAudio × List Event :=
  let frozen :=
    if loopIsActive s then
      s.loopStart + (now - s.lastLoop) * s.playBackrate
    else
      s.lastStart + (now - s.startTime) * s.playBackrate
  let s1 := { s with lastPause := frozen, paused := true }
  let s2 := if s1.source then clearSource s1 else s1
  (s2, [Event.pause])

/-- The `onaudioprocess` handler installed by `createScriptNode`: while
not paused, read the time, auto-pause past `scheduledPause` (firing
`finish` as well when past the buffer end), then fire `audioprocess`. -/
def onaudioprocess (s : WebAudio) (now : ℚ) : WebAudio × List Event :=
  if isPaused s then
    (s, [])
  else
    let time := getCurrentTime s now
    let p :=
      if time > s.scheduledPause then
        let q := pause s now
        if time > getDuration q.1 then
          (q.1, q.2 ++ [Event.finish time])
        else
          q
      else
        (s, [])
    (p.1, p.2 ++ [Event.audioprocess time])

/-- A JavaScript numeric value as produced by the division in
`getPlayedPercents`: a finite number, an infinity, or NaN. -/
inductive JSVal where
  | num (q : ℚ) : JSVal
  | posInf : JSVal
  | negInf : JSVal
  | nan : JSVal
deriving DecidableEq

/-- IEEE division of finite operands as JavaScript performs it: exact on
a nonzero divisor, signed infinity or NaN on a zero divisor. -/
def jsDiv (a b : ℚ) : JSVal :=
  if b = 0 then
    if a = 0 then JSVal.nan
    else if 0 < a then JSVal.posInf
    else JSVal.negInf
  else
    JSVal.num (a / b)

/-- JavaScript truthiness of a numeric value: 0 and NaN are falsy,
everything else (infinities included) is truthy. -/
def jsTruthy : JSVal → Bool
  | JSVal.num q => q != 0
  | JSVal.posInf => true
  | JSVal.negInf => true
  | JSVal.nan => false

/-- The `x || 0` idiom: keep `x` when truthy, otherwise 0. -/
def jsOrZero (v : JSVal) : JSVal :=
  if jsTruthy v then v else JSVal.num 0

/-- Source `getPlayedPercents`: `(this.getCurrentTime() / this.getDuration()) || 0`
with JavaScript division-by-zero semantics. -/
def getPlayedPercents (s : WebAudio) (now : ℚ) : JSVal :=
  jsOrZero (jsDiv (getCurrentTime s now) (getDuration s))

/-- Source `updateSelection(startPercent, endPercent)`: returns the explicit
`false` when the feature flag is off, bare `return` (undefined, modelled
`none`) when the duration is zero, otherwise enables the loop, scales
the fractions by the duration (pushing them to a live source node) and
falls off the end (undefined). -/
def updateSelection (s : WebAudio) (startPercent endPercent : ℚ) :
    WebAudio × Option Bool :=
  if s.loopSelection = false then
    (s, some false)
  else
    let duration := getDuration s
    if duration = 0 then
      (s, none)
    else
      ({ s with
          loop := true
          loopStart := duration * startPercent
          loopEnd := duration * endPercent }, none)

/-- Source `clearSelection()`: returns the explicit `false` when the feature
flag is off, otherwise disables the loop and zeroes its bounds (pushing
them to a live source node), falling off the end (undefined). -/
def clearSelection (s : WebAudio) : WebAudio × Option Bool :=
  if s.loopSelection = false then
    (s, some false)
  else
    ({ s with loop := false, loopStart := 0, loopEnd := 0 }, none)

/-- Source `logLoop()`: record the hardware time of a loop wrap, but only when
the current segment started with a valid loop. -/
def logLoop (s : WebAudio) (now : ℚ) : WebAudio :=
  if s.loopedAtStart then { s with lastLoop := now } else s

/-- The state-mutating operations of the module, for reasoning about
whole sessions as sequences of calls. -/
inductive Op where
  | play (a b : Option ℚ) : Op
  | pause : Op
  | updateSelection (sp ep : ℚ) : Op
  | clearSelection : Op
  | setBuffer (b : Option Buffer) : Op
  | setupLoop : Op
  | logLoop : Op
  | setPlaybackRate (v : Option ℚ) : Op

/-- Apply one operation at hardware time `now`, keeping only the state
(events are dropped here). -/
def applyOp (s : WebAudio) (o : Op) (now : ℚ) : WebAudio :=
  match o with
  | Op.play a b => (play s a b now).1
  | Op.pause => (pause s now).1
  | Op.updateSelection sp ep => (updateSelection s sp ep).1
  | Op.clearSelection => (clearSelection s).1
  | Op.setBuffer b => setBuffer s b
  | Op.setupLoop => setupLoop s
  | Op.logLoop => logLoop s now
  | Op.setPlaybackRate v => setPlaybackRate s v

/-- Run a sequence of operations, each paired with the hardware clock
value at which it is invoked. -/
def run (s : WebAudio) (ops : List (Op × ℚ)) : WebAudio :=
  ops.foldl (fun t p => applyOp t p.1 p.2) s

/-- A fresh session right after `init` (which fixes the `loopSelection`
feature flag and the default playback rate 1) and the initial
(empty-)buffer load that zeroes every transient field. -/
def initState (loopSel : Bool) : WebAudio :=
  { buffer := none
    paused := true
    lastStart := 0
    startTime := 0
    lastPause := 0
    scheduledPause := 0
    playBackrate := 1
    loop := false
    loopStart := 0
    loopEnd := 0
    loopedAtStart := false
    lastLoop := 0
    loopSelection := loopSel
    source := false }

/-- States a session with the given feature flag can actually be in:
everything obtainable from the fresh session by some sequence of
operations. -/
def Reachable (loopSel : Bool) (s : WebAudio) : Prop :=
  ∃ ops, s = run (initState loopSel) ops

/-- The Time Computation rule exactly as the spec words it: branch on
paused, then on the spelled-out conjunction for "loop is active", then
the default, in that priority order.  Spec-side definition, to be
compared with `getCurrentTime` from the source. -/
def specCurrentTime (s : WebAudio) (now : ℚ) : ℚ :=
  if s.paused = true then
    s.lastPause
  else if s.loopSelection = true ∧ s.loop = true ∧ s.lastLoop ≠ 0 ∧
      s.loopedAtStart = true then
    s.loopStart + (now - s.lastLoop) * s.playBackrate
  else
    s.lastStart + (now - s.startTime) * s.playBackrate

/-- Constraint on an operation under which the loop-region ordering is
preserved: `updateSelection` must be called with its fractions in
order; every other operation is unconstrained. -/
def goodOp : Op → Prop
  | Op.updateSelection sp ep => sp ≤ ep
  | _ => True

/-- When the feature flag is off, no loop state can ever arise: the
loop-wrap timestamp stays 0, and the looped-at-start and loop-enabled
flags stay false. -/
def NoLoopInv (s : WebAudio) : Prop :=
  s.loopSelection = false →
    s.lastLoop = 0 ∧ s.loopedAtStart = false ∧ s.loop = false

/-- The loop-region ordering invariant: bounds are ordered whenever the
loop is enabled. -/
def LoopOrderInv (s : WebAudio) : Prop :=
  s.loop = true → s.loopStart ≤ s.loopEnd

/-- A 10-second decoded buffer, used in concrete scenarios. -/
def sampleBuffer : Buffer :=
  ⟨10, by norm_num⟩

/-- A session playing the whole 10-second buffer from offset 0, observed
by the poll driver past the scheduled stop. -/
def c2state : WebAudio :=
  { initState true with
      buffer := some sampleBuffer
      paused := false
      scheduledPause := 10
      source := true }

/-- A paused session with no buffer but a nonzero frozen position. -/
def c6state : WebAudio :=
  { initState true with lastPause := 5 }

/-- A session with loop-selection enabled but no buffer loaded. -/
def c7state : WebAudio :=
  initState true

/-- A session with loop-selection enabled and the 10-second buffer. -/
def c7wstate : WebAudio :=
  { initState true with buffer := some sampleBuffer }

/-- Load the buffer, then select a loop region with the fractions out of
order. -/
def c8ops : List (Op × ℚ) :=
  [(Op.setBuffer (some sampleBuffer), 0), (Op.updateSelection (1/2) (1/5), 0)]

/-- Load the buffer, then select a loop region with the fractions in
order. -/
def c8wops : List (Op × ℚ) :=
  [(Op.setBuffer (some sampleBuffer), 0), (Op.updateSelection (1/5) (1/2), 0)]

/-- A session mid-playback with a live loop region and pending scheduled
pause, about to have its buffer replaced. -/
def c9pre : WebAudio :=
  { buffer := some sampleBuffer
    paused := false
    lastStart := 1
    startTime := 2
    lastPause := 3
    scheduledPause := 7
    playBackrate := 1
    loop := true
    loopStart := 2
    loopEnd := 5
    loopedAtStart := true
    lastLoop := 4
    loopSelection := true
    source := true }

/-- A bufferless session with loop-selection enabled and a nonempty loop
region. -/
def c10state : WebAudio :=
  { initState true with loop := true, loopStart := 3, loopEnd := 5 }

theorem refreshBufferSource_eq (s : WebAudio) :
    refreshBufferSource s = { s with source := true } := by
  unfold refreshBufferSource clearSource
  by_cases h : s.source = true <;> simp [h]

theorem setupLoop_lastStart (s : WebAudio) :
    (setupLoop s).lastStart = s.lastStart := by
  simp only [setupLoop]
  split <;> rfl

theorem setupLoop_startTime (s : WebAudio) :
    (setupLoop s).startTime = s.startTime := by
  simp only [setupLoop]
  split <;> rfl

theorem setupLoop_paused (s : WebAudio) :
    (setupLoop s).paused = s.paused := by
  simp only [setupLoop]
  split <;> rfl

theorem setupLoop_scheduledPause (s : WebAudio) :
    (setupLoop s).scheduledPause = s.scheduledPause := by
  simp only [setupLoop]
  split <;> rfl

theorem setupLoop_lastLoop (s : WebAudio) :
    (setupLoop s).lastLoop = 0 := by
  simp only [setupLoop]
  split <;> rfl

theorem play_eq (s : WebAudio) (a b : Option ℚ) (now : ℚ) :
    play s a b now =
      (let start0 := a.getD (getCurrentTime s now)
       let stop := b.getD (getDuration s)
       let start := if start0 > stop then 0 else start0
       let s1 : WebAudio :=
         { s with
             lastStart := start
             startTime := now
             paused := false
             scheduledPause := stop
             source := true }
       (if s1.loopSelection then setupLoop s1 else s1, [Event.play])) := by
  unfold play
  rw [refreshBufferSource_eq]
  rfl

theorem pause_eq (s : WebAudio) (now : ℚ) :
    pause s now =
      ({ s with
          lastPause :=
            if loopIsActive s then
              s.loopStart + (now - s.lastLoop) * s.playBackrate
            else
              s.lastStart + (now - s.startTime) * s.playBackrate
          paused := true
          source := false }, [Event.pause]) := by
  unfold pause clearSource
  by_cases h : s.source = true
  · simp [h]
  · have h0 : s.source = false := by simpa using h
    simp only [h0]
    simp

theorem loopIsActive_iff (s : WebAudio) :
    loopIsActive s = true ↔
      (s.loopSelection = true ∧ s.loop = true ∧ s.lastLoop ≠ 0 ∧
        s.loopedAtStart = true) := by
  unfold loopIsActive
  simp [Bool.and_eq_true, bne_iff_ne, and_assoc]

/-- Claim C1: `getCurrentTime()` returns `lastPause` when paused;
otherwise, when `loopSelection`, `loop`, `lastLoop != 0` and
`loopedAtStart` all hold, it returns
`loopStart + (now - lastLoop) * playBackrate`; otherwise it returns
`lastStart + (now - startTime) * playBackrate`, the three branches
evaluated in exactly that priority order (as captured by
`specCurrentTime`). -/
theorem getCurrentTime_eq_spec (s : WebAudio) (now : ℚ) :
    getCurrentTime s now = specCurrentTime s now := by
  unfold getCurrentTime specCurrentTime isPaused
  by_cases hp : s.paused = true
  · rw [if_pos hp, if_pos hp]
  · rw [if_neg hp, if_neg hp]
    by_cases hl : loopIsActive s = true
    · rw [if_pos hl, if_pos ((loopIsActive_iff s).mp hl)]
    · rw [if_neg hl, if_neg fun hc => hl ((loopIsActive_iff s).mpr hc)]

/-- Claim C3: `play(start, end)` resolves a missing start to the current
logical time and a missing end to the buffer duration, forces the start
to 0 when the resolved start exceeds the resolved end, and afterwards
`lastStart` is the resolved start, `startTime` is the hardware clock
now, `paused` is false and `scheduledPause` is the resolved end. -/
theorem play_resolves_and_records (s : WebAudio) (a b : Option ℚ)
    (now : ℚ) :
    (play s a b now).1.lastStart =
      (if a.getD (getCurrentTime s now) > b.getD (getDuration s) then 0
       else a.getD (getCurrentTime s now)) ∧
    (play s a b now).1.startTime = now ∧
    (play s a b now).1.paused = false ∧
    (play s a b now).1.scheduledPause = b.getD (getDuration s) := by
  rw [play_eq]
  refine ⟨?_, ?_, ?_, ?_⟩ <;> dsimp only <;> split <;>
    simp [setupLoop_lastStart, setupLoop_startTime, setupLoop_paused,
      setupLoop_scheduledPause]

/-- Claim C5: two consecutive `pause()` calls at the same hardware clock
value leave `lastPause` exactly as the first call left it; the second
call is total even though the first already released the source node. -/
theorem pause_idempotent_lastPause (s : WebAudio) (now : ℚ) :
    (pause (pause s now).1 now).1.lastPause = (pause s now).1.lastPause := by
  rw [pause_eq s now]
  dsimp only
  rw [pause_eq]
  dsimp only
  rfl

/-- Counterexample to claim C9: replacing the buffer of a session whose
loop region is `[2, 5]`, `loopedAtStart` is set and `scheduledPause` is
7 leaves all of those fields carrying the previous buffer's state
instead of resetting them. -/
theorem setBuffer_keeps_loop_state :
    (setBuffer c9pre (some sampleBuffer)).loop = true ∧
    (setBuffer c9pre (some sampleBuffer)).loopStart = 2 ∧
    (setBuffer c9pre (some sampleBuffer)).loopEnd = 5 ∧
    (setBuffer c9pre (some sampleBuffer)).loopedAtStart = true ∧
    (setBuffer c9pre (some sampleBuffer)).scheduledPause = 7 :=
  ⟨rfl, rfl, rfl, rfl, rfl⟩

/-- Claim C9 as amended: `setBuffer` resets `lastLoop`, `lastPause`,
`lastStart` and `startTime` to 0, marks the session paused and adopts
the new buffer, but leaves the loop-region fields (`loop`, `loopStart`,
`loopEnd`, `loopedAtStart`) and `scheduledPause` unchanged from the
previous buffer's session. -/
theorem setBuffer_resets_transients (s : WebAudio) (b : Option Buffer) :
    (setBuffer s b).lastLoop = 0 ∧
    (setBuffer s b).lastPause = 0 ∧
    (setBuffer s b).lastStart = 0 ∧
    (setBuffer s b).startTime = 0 ∧
    (setBuffer s b).paused = true ∧
    (setBuffer s b).buffer = b ∧
    (setBuffer s b).loop = s.loop ∧
    (setBuffer s b).loopStart = s.loopStart ∧
    (setBuffer s b).loopEnd = s.loopEnd ∧
    (setBuffer s b).loopedAtStart = s.loopedAtStart ∧
    (setBuffer s b).scheduledPause = s.scheduledPause := by
  unfold setBuffer clearSource
  by_cases h : s.source = true <;> simp [h]

/-- Claim C10: `clearSelection()` returns the explicit `false` failure
signal exactly when loop-selection is disabled; when enabled it always
sets `loop` to false and zeroes `loopStart` and `loopEnd`, with no
loaded-buffer precondition. -/
theorem clearSelection_spec (s : WebAudio) :
    ((clearSelection s).2 = some false ↔ s.loopSelection = false) ∧
    (s.loopSelection = true →
      (clearSelection s).1.loop = false ∧
      (clearSelection s).1.loopStart = 0 ∧
      (clearSelection s).1.loopEnd = 0) := by
  unfold clearSelection
  by_cases h : s.loopSelection = false <;> simp [h]

/-- Witness for claim C10 at a concrete bufferless session with
loop-selection enabled and a nonempty loop region. -/
theorem clearSelection_spec_w :
    c10state.buffer = none ∧
    (clearSelection c10state).1.loop = false ∧
    (clearSelection c10state).1.loopStart = 0 ∧
    (clearSelection c10state).1.loopEnd = 0 :=
  ⟨rfl, (clearSelection_spec c10state).2 rfl⟩

theorem getDuration_pause (s : WebAudio) (now : ℚ) :
    getDuration (pause s now).1 = getDuration s := by
  rw [pause_eq]
  rfl

/-- Claim C2: on each poll-driver invocation while not paused, with
`time := getCurrentTime()`: `pause()` is applied exactly when
`time > scheduledPause`; a `finish` event is emitted iff additionally
`time > duration`; an `audioprocess` event carrying `time` is always
emitted last, so a `pause` event always precedes it. -/
theorem onaudioprocess_spec (s : WebAudio) (now : ℚ)
    (h : s.paused = false) :
    (onaudioprocess s now).1 =
      (if getCurrentTime s now > s.scheduledPause then (pause s now).1
       else s) ∧
    (onaudioprocess s now).2 =
      (if getCurrentTime s now > s.scheduledPause then
         Event.pause ::
           (if getCurrentTime s now > getDuration s then
              [Event.finish (getCurrentTime s now)]
            else [])
       else []) ++ [Event.audioprocess (getCurrentTime s now)] := by
  unfold onaudioprocess isPaused
  rw [if_neg (by simp [h])]
  dsimp only
  rw [getDuration_pause]
  by_cases h1 : getCurrentTime s now > s.scheduledPause
  · by_cases h2 : getCurrentTime s now > getDuration s <;>
      simp [h1, h2, pause_eq]
  · simp [h1]

/-- Witness for claim C2: a session playing the whole 10-second buffer
with `scheduledPause = 10`, polled at hardware time 11: it pauses and
emits `pause`, `finish` and `audioprocess`, in that order. -/
theorem onaudioprocess_spec_w :
    (onaudioprocess c2state 11).1 = (pause c2state 11).1 ∧
    (onaudioprocess c2state 11).2 =
      [Event.pause, Event.finish 11, Event.audioprocess 11] := by
  obtain ⟨h1, h2⟩ := onaudioprocess_spec c2state 11 rfl
  have ht : getCurrentTime c2state 11 = 11 := by
    norm_num [getCurrentTime, isPaused, loopIsActive, c2state, initState]
  have hs : (11 : ℚ) > c2state.scheduledPause := by
    norm_num [c2state, initState]
  have hd : (11 : ℚ) > getDuration c2state := by
    norm_num [getDuration, c2state, initState, sampleBuffer]
  rw [ht] at h1 h2
  constructor
  · rw [h1, if_pos hs]
  · rw [h2, if_pos hs, if_pos hd]
    rfl

/-- Counterexample to claim C6: a paused session with no buffer but a
nonzero frozen position: the duration is 0, yet `getPlayedPercents`
returns positive infinity (the `x || 0` guard passes infinities
through), not 0. -/
theorem getPlayedPercents_infinite :
    c6state.buffer = none ∧
    getDuration c6state = 0 ∧
    getPlayedPercents c6state 0 = JSVal.posInf ∧
    getPlayedPercents c6state 0 ≠ JSVal.num 0 := by
  refine ⟨rfl, rfl, ?_, ?_⟩ <;> decide

/-- Claim C6 as amended: with no buffer loaded `getDuration()` returns
0; `getPlayedPercents()` returns `getCurrentTime() / duration`, and
when the duration is 0 it returns 0 only when `getCurrentTime()` is
also 0 (the NaN case) — a nonzero current time over a zero duration
yields a signed infinity. -/
theorem getPlayedPercents_spec (s : WebAudio) (now : ℚ) :
    (s.buffer = none → getDuration s = 0) ∧
    getPlayedPercents s now =
      (if getDuration s = 0 then
         (if getCurrentTime s now = 0 then JSVal.num 0
          else if 0 < getCurrentTime s now then JSVal.posInf
          else JSVal.negInf)
       else JSVal.num (getCurrentTime s now / getDuration s)) := by
  constructor
  · intro hb
    simp [getDuration, hb]
  · by_cases hd : getDuration s = 0
    · rcases lt_trichotomy (getCurrentTime s now) 0 with hlt | heq | hgt
      · simp [getPlayedPercents, jsDiv, jsOrZero, jsTruthy, hd, hlt.ne,
          hlt.not_lt, hlt]
      · simp [getPlayedPercents, jsDiv, jsOrZero, jsTruthy, hd, heq]
      · simp [getPlayedPercents, jsDiv, jsOrZero, jsTruthy, hd, hgt,
          hgt.ne.symm]
    · by_cases hq : getCurrentTime s now / getDuration s = 0
      · simp [getPlayedPercents, jsDiv, jsOrZero, jsTruthy, hd, hq]
      · simp [getPlayedPercents, jsDiv, jsOrZero, jsTruthy, hd, hq]

/-- Witness for (amended) claim C6 at the concrete bufferless paused
session with frozen position 5. -/
theorem getPlayedPercents_spec_w :
    getDuration c6state = 0 ∧
    getPlayedPercents c6state 0 = JSVal.posInf := by
  obtain ⟨h1, h2⟩ := getPlayedPercents_spec c6state 0
  refine ⟨h1 rfl, ?_⟩
  rw [h2, if_pos (h1 rfl), if_neg (by decide), if_pos (by decide)]

/-- Counterexample to claim C7: with loop-selection enabled but no
buffer loaded, `updateSelection` mutates nothing but returns undefined
(`none`), not the explicit `false` failure signal the claim asserts. -/
theorem updateSelection_no_false_signal :
    c7state.loopSelection = true ∧
    c7state.buffer = none ∧
    (updateSelection c7state (1/5) (1/2)).1 = c7state ∧
    (updateSelection c7state (1/5) (1/2)).2 = none ∧
    (updateSelection c7state (1/5) (1/2)).2 ≠ some false :=
  ⟨rfl, rfl, rfl, rfl, by decide⟩

/-- Claim C7 as amended: `updateSelection` mutates nothing and returns
the explicit `false` when loop-selection is disabled; it mutates
nothing and returns undefined (falsy, but not the explicit `false`)
when loop-selection is enabled but no buffer is loaded; otherwise it
sets `loop := true`, `loopStart := duration * startFraction` and
`loopEnd := duration * endFraction`. -/
theorem updateSelection_spec (s : WebAudio) (sp ep : ℚ) :
    (s.loopSelection = false →
      (updateSelection s sp ep).1 = s ∧
      (updateSelection s sp ep).2 = some false) ∧
    (s.loopSelection = true → getDuration s = 0 →
      (updateSelection s sp ep).1 = s ∧
      (updateSelection s sp ep).2 = none) ∧
    (s.loopSelection = true → getDuration s ≠ 0 →
      (updateSelection s sp ep).1.loop = true ∧
      (updateSelection s sp ep).1.loopStart = getDuration s * sp ∧
      (updateSelection s sp ep).1.loopEnd = getDuration s * ep ∧
      (updateSelection s sp ep).2 = none) := by
  unfold updateSelection
  refine ⟨fun h1 => ?_, fun h1 h2 => ?_, fun h1 h2 => ?_⟩
  · rw [if_pos h1]
    exact ⟨rfl, rfl⟩
  · rw [if_neg (by simp [h1])]
    dsimp only
    rw [if_pos h2]
    exact ⟨rfl, rfl⟩
  · rw [if_neg (by simp [h1])]
    dsimp only
    rw [if_neg h2]
    exact ⟨rfl, rfl, rfl, rfl⟩

/-- Witness for (amended) claim C7: selecting the fractions 1/5 and 1/2
of the 10-second buffer sets the loop region to `[2, 5]` and returns
undefined. -/
theorem updateSelection_spec_w :
    (updateSelection c7wstate (1/5) (1/2)).1.loop = true ∧
    (updateSelection c7wstate (1/5) (1/2)).1.loopStart = 2 ∧
    (updateSelection c7wstate (1/5) (1/2)).1.loopEnd = 5 ∧
    (updateSelection c7wstate (1/5) (1/2)).2 = none := by
  obtain ⟨h1, h2, h3, h4⟩ :=
    (updateSelection_spec c7wstate (1/5) (1/2)).2.2 rfl
      (by norm_num [getDuration, c7wstate, initState, sampleBuffer])
  refine ⟨h1, ?_, ?_, h4⟩
  · rw [h2]
    norm_num [getDuration, c7wstate, initState, sampleBuffer]
  · rw [h3]
    norm_num [getDuration, c7wstate, initState, sampleBuffer]

theorem setupLoop_loopSelection (s : WebAudio) :
    (setupLoop s).loopSelection = s.loopSelection := by
  simp only [setupLoop]
  split <;> rfl

theorem setupLoop_loop (s : WebAudio) : (setupLoop s).loop = s.loop := by
  simp only [setupLoop]
  split <;> rfl

theorem setupLoop_loopStart (s : WebAudio) :
    (setupLoop s).loopStart = s.loopStart := by
  simp only [setupLoop]
  split <;> rfl

theorem setupLoop_loopEnd (s : WebAudio) :
    (setupLoop s).loopEnd = s.loopEnd := by
  simp only [setupLoop]
  split <;> rfl

theorem setupLoop_loopedAtStart_of_not_loop (s : WebAudio)
    (h : s.loop = false) : (setupLoop s).loopedAtStart = false := by
  simp only [setupLoop]
  split
  · next hc =>
      simp only [h] at hc
      exact absurd hc.1 (by simp)
  · rfl

theorem play_loop (s : WebAudio) (a b : Option ℚ) (now : ℚ) :
    (play s a b now).1.loop = s.loop := by
  rw [play_eq]
  dsimp only
  split
  · rw [setupLoop_loop]
  · rfl

theorem play_loopStart (s : WebAudio) (a b : Option ℚ) (now : ℚ) :
    (play s a b now).1.loopStart = s.loopStart := by
  rw [play_eq]
  dsimp only
  split
  · rw [setupLoop_loopStart]
  · rfl

theorem play_loopEnd (s : WebAudio) (a b : Option ℚ) (now : ℚ) :
    (play s a b now).1.loopEnd = s.loopEnd := by
  rw [play_eq]
  dsimp only
  split
  · rw [setupLoop_loopEnd]
  · rfl

theorem play_loopSelection (s : WebAudio) (a b : Option ℚ) (now : ℚ) :
    (play s a b now).1.loopSelection = s.loopSelection := by
  rw [play_eq]
  dsimp only
  split
  · rw [setupLoop_loopSelection]
  · rfl

theorem updateSelection_loopSelection (s : WebAudio) (sp ep : ℚ) :
    (updateSelection s sp ep).1.loopSelection = s.loopSelection := by
  unfold updateSelection
  split
  · rfl
  · dsimp only
    split <;> rfl

theorem clearSelection_loopSelection (s : WebAudio) :
    (clearSelection s).1.loopSelection = s.loopSelection := by
  unfold clearSelection
  split <;> rfl

theorem applyOp_loopSelection (s : WebAudio) (o : Op) (now : ℚ) :
    (applyOp s o now).loopSelection = s.loopSelection := by
  cases o with
  | play a b => exact play_loopSelection s a b now
  | pause => rw [applyOp, pause_eq]
  | updateSelection sp ep => exact updateSelection_loopSelection s sp ep
  | clearSelection => exact clearSelection_loopSelection s
  | setBuffer b =>
      simp only [applyOp]
      unfold setBuffer clearSource
      by_cases hs : s.source = true <;> simp [hs]
  | setupLoop => exact setupLoop_loopSelection s
  | logLoop =>
      simp only [applyOp]
      unfold logLoop
      split <;> rfl
  | setPlaybackRate v =>
      simp only [applyOp]
      cases v <;> rfl

theorem noLoopInv_applyOp (s : WebAudio) (o : Op) (now : ℚ)
    (h : NoLoopInv s) : NoLoopInv (applyOp s o now) := by
  intro hf
  rw [applyOp_loopSelection] at hf
  obtain ⟨h1, h2, h3⟩ := h hf
  cases o with
  | play a b =>
      simp only [applyOp]
      rw [play_eq]
      dsimp only
      rw [if_neg (by simp [hf])]
      exact ⟨h1, h2, h3⟩
  | pause =>
      simp only [applyOp]
      rw [pause_eq]
      exact ⟨h1, h2, h3⟩
  | updateSelection sp ep =>
      simp only [applyOp]
      unfold updateSelection
      rw [if_pos hf]
      exact ⟨h1, h2, h3⟩
  | clearSelection =>
      simp only [applyOp]
      unfold clearSelection
      rw [if_pos hf]
      exact ⟨h1, h2, h3⟩
  | setBuffer b =>
      simp only [applyOp]
      unfold setBuffer clearSource
      by_cases hs : s.source = true
      · rw [if_pos hs]
        exact ⟨rfl, h2, h3⟩
      · rw [if_neg hs]
        exact ⟨rfl, h2, h3⟩
  | setupLoop =>
      exact ⟨setupLoop_lastLoop s, setupLoop_loopedAtStart_of_not_loop s h3,
        (setupLoop_loop s).trans h3⟩
  | logLoop =>
      simp only [applyOp]
      unfold logLoop
      rw [if_neg (by simp [h2])]
      exact ⟨h1, h2, h3⟩
  | setPlaybackRate v =>
      simp only [applyOp]
      cases v <;> exact ⟨h1, h2, h3⟩

theorem noLoopInv_init (b : Bool) : NoLoopInv (initState b) :=
  fun _ => ⟨rfl, rfl, rfl⟩

theorem noLoopInv_run (s : WebAudio) (ops : List (Op × ℚ))
    (h : NoLoopInv s) : NoLoopInv (run s ops) := by
  induction ops generalizing s with
  | nil => exact h
  | cons p rest ih => exact ih _ (noLoopInv_applyOp s p.1 p.2 h)

/-- Claim C4: in every state a session can actually be in, a `play` call
leaves `lastLoop = 0`, whether the loop-selection flag is on (in which
case `setupLoop` resets it) or off (in which case nothing can ever have
set it). -/
theorem play_resets_lastLoop (flag : Bool) (s : WebAudio)
    (h : Reachable flag s) (a b : Option ℚ) (now : ℚ) :
    (play s a b now).1.lastLoop = 0 := by
  obtain ⟨ops, rfl⟩ := h
  have hinv := noLoopInv_run (initState flag) ops (noLoopInv_init flag)
  rw [play_eq]
  dsimp only
  by_cases hf : (run (initState flag) ops).loopSelection = true
  · rw [if_pos hf]
    exact setupLoop_lastLoop _
  · have hf0 : (run (initState flag) ops).loopSelection = false := by
      simpa using hf
    rw [if_neg hf]
    exact (hinv hf0).1

/-- Witness for claim C4 at a fresh session with loop-selection off. -/
theorem play_resets_lastLoop_w :
    (play (initState false) none none 0).1.lastLoop = 0 :=
  play_resets_lastLoop false (initState false) ⟨[], rfl⟩ none none 0

theorem getDuration_nonneg (s : WebAudio) : 0 ≤ getDuration s := by
  cases hb : s.buffer with
  | none => simp [getDuration, hb]
  | some b => simpa [getDuration, hb] using b.duration_nonneg

theorem loopOrderInv_applyOp (s : WebAudio) (o : Op) (now : ℚ)
    (hg : goodOp o) (h : LoopOrderInv s) : LoopOrderInv (applyOp s o now) := by
  cases o with
  | play a b =>
      intro hl
      simp only [applyOp] at hl ⊢
      rw [play_loop] at hl
      rw [play_loopStart, play_loopEnd]
      exact h hl
  | pause =>
      intro hl
      simp only [applyOp, pause_eq] at hl ⊢
      exact h hl
  | updateSelection sp ep =>
      intro hl
      simp only [applyOp] at hl ⊢
      unfold updateSelection at hl ⊢
      by_cases h1 : s.loopSelection = false
      · rw [if_pos h1] at hl ⊢
        exact h hl
      · rw [if_neg h1] at hl ⊢
        dsimp only at hl ⊢
        by_cases h2 : getDuration s = 0
        · rw [if_pos h2] at hl ⊢
          exact h hl
        · rw [if_neg h2] at hl ⊢
          dsimp only
          exact mul_le_mul_of_nonneg_left hg (getDuration_nonneg s)
  | clearSelection =>
      intro hl
      simp only [applyOp] at hl ⊢
      unfold clearSelection at hl ⊢
      by_cases h1 : s.loopSelection = false
      · rw [if_pos h1] at hl ⊢
        exact h hl
      · rw [if_neg h1] at hl ⊢
  | setBuffer b =>
      intro hl
      simp only [applyOp] at hl ⊢
      unfold setBuffer clearSource at hl ⊢
      by_cases hs : s.source = true
      · rw [if_pos hs] at hl ⊢
        exact h hl
      · rw [if_neg hs] at hl ⊢
        exact h hl
  | setupLoop =>
      intro hl
      simp only [applyOp] at hl ⊢
      rw [setupLoop_loop] at hl
      rw [setupLoop_loopStart, setupLoop_loopEnd]
      exact h hl
  | logLoop =>
      intro hl
      simp only [applyOp] at hl ⊢
      unfold logLoop at hl ⊢
      by_cases h1 : s.loopedAtStart = true
      · rw [if_pos h1] at hl ⊢
        exact h hl
      · rw [if_neg h1] at hl ⊢
        exact h hl
  | setPlaybackRate v =>
      intro hl
      simp only [applyOp] at hl ⊢
      cases v <;> exact h hl

theorem loopOrderInv_init (b : Bool) : LoopOrderInv (initState b) := by
  intro hc
  simp [initState] at hc

theorem loopOrderInv_run (s : WebAudio) (ops : List (Op × ℚ))
    (hg : ∀ p ∈ ops, goodOp p.1) (h : LoopOrderInv s) :
    LoopOrderInv (run s ops) := by
  induction ops generalizing s with
  | nil => exact h
  | cons p rest ih =>
      exact ih _ (fun q hq => hg q (List.mem_cons_of_mem p hq))
        (loopOrderInv_applyOp s p.1 p.2 (hg p (List.mem_cons_self p rest)) h)

/-- Counterexample to claim C8: loading the 10-second buffer and calling
`updateSelection(1/2, 1/5)` (fractions out of order) enables the loop
with `loopStart = 5 > 2 = loopEnd`: no operation validates the
ordering. -/
theorem run_loop_unordered :
    (run (initState true) c8ops).loop = true ∧
    ¬ (run (initState true) c8ops).loopStart ≤
        (run (initState true) c8ops).loopEnd := by
  have hrun : run (initState true) c8ops =
      (updateSelection (setBuffer (initState true) (some sampleBuffer))
        (1/2) (1/5)).1 := rfl
  have hd : getDuration (setBuffer (initState true) (some sampleBuffer)) = 10 := by
    norm_num [getDuration, setBuffer, clearSource, initState, sampleBuffer]
  rw [hrun]
  unfold updateSelection
  rw [if_neg (by norm_num [setBuffer, clearSource, initState])]
  dsimp only
  rw [if_neg (by rw [hd]; norm_num)]
  constructor
  · rfl
  · dsimp only
    rw [hd]
    norm_num

/-- Claim C8 as amended: over every sequence of operations in which each
`updateSelection` call has its fractions in order
(`startFraction ≤ endFraction`), whenever `loop` is enabled at the end,
`loopStart ≤ loopEnd` holds. -/
theorem run_loop_ordered (flag : Bool) (ops : List (Op × ℚ))
    (hg : ∀ p ∈ ops, goodOp p.1)
    (hl : (run (initState flag) ops).loop = true) :
    (run (initState flag) ops).loopStart ≤
      (run (initState flag) ops).loopEnd :=
  loopOrderInv_run (initState flag) ops hg (loopOrderInv_init flag) hl

/-- Witness for (amended) claim C8: loading the buffer then selecting
the ordered fractions 1/5 and 1/2 yields an enabled loop with ordered
bounds. -/
theorem run_loop_ordered_w :
    (∀ p ∈ c8wops, goodOp p.1) ∧
    (run (initState true) c8wops).loop = true ∧
    (run (initState true) c8wops).loopStart ≤
      (run (initState true) c8wops).loopEnd := by
  have hg : ∀ p ∈ c8wops, goodOp p.1 := by
    intro p hp
    fin_cases hp
    · trivial
    · show (1 : ℚ)/5 ≤ 1/2
      norm_num
  have hl : (run (initState true) c8wops).loop = true := by decide
  exact ⟨hg, hl, run_loop_ordered true c8wops hg hl⟩

end WaveSurfer
